import Mathlib

/-!
Shallow embedding of the voidension load balancer (`main.go`) and proofs
about its server-pool selection, admission queue, allowlist and forwarding
logic. Pure Go functions become Lean functions; the handler's interactions
with the network are parametrised by a `NetOracle` describing the outcome
of each I/O step, and the mutable pool / channels are threaded explicitly.
-/

set_option autoImplicit false

namespace Voidension

/-- One backend descriptor, `type Server struct` (main.go:35-39). -/
structure Server where
  url : String
  locked : Bool
  alive : Bool
  deriving Repr, DecidableEq

/-- `findAvailableServer` (main.go:104-114): under the pool mutex, scan
`serverPool` in order; the first server with `Alive && !Locked` gets
`Locked = true` and is returned.  We return the claimed index together with
the updated pool (the whole scan-and-set happens in one critical section,
which the single pure call models). -/
def findAvailableServer : List Server → Option Nat × List Server
  | [] => (none, [])
  | s :: rest =>
      if s.alive && !s.locked then
        (some 0, { s with locked := true } :: rest)
      else
        let p := findAvailableServer rest
        (p.1.map Nat.succ, s :: p.2)

/-- `unlockServer` (main.go:116-120): set `Locked = false` on the server at
the given pool index (the Go code passes the `*Server` itself). -/
def unlockServer : List Server → Nat → List Server
  | [], _ => []
  | s :: rest, 0 => { s with locked := false } :: rest
  | s :: rest, Nat.succ i => s :: unlockServer rest i

/-- `isIPAllowed` (main.go:182-193): an empty allowlist admits everyone,
otherwise the ip must literally equal one of the entries. -/
def isIPAllowed (allowedIPs : List String) (ip : String) : Bool :=
  if allowedIPs.length == 0 then true
  else allowedIPs.any (fun allowedIP => ip == allowedIP)

/-- Go `http.Header` is a map from canonical key to a list of values; we
model it as an association list with (as Go guarantees) at most one entry
per key. -/
abbrev Header := List (String × List String)

/-- `Header.Get`: first value for the key, or `""` when absent. -/
def hGet (h : Header) (k : String) : String :=
  match h.find? (fun p => p.1 == k) with
  | some (_, v :: _) => v
  | _ => ""

/-- All values stored under a key (the slice `h[k]`, `[]` when absent). -/
def hVals (h : Header) (k : String) : List String :=
  match h.find? (fun p => p.1 == k) with
  | some (_, vs) => vs
  | none => []

/-- `Header.Del`: remove the key. -/
def hDel (h : Header) (k : String) : Header :=
  h.filter (fun p => p.1 != k)

/-- `Header.Add`: append a value to the key's slice
(`h[k] = append(h[k], v)`). -/
def hAdd (h : Header) (k : String) (v : String) : Header :=
  if h.any (fun p => p.1 == k) then
    h.map (fun p => if p.1 == k then (p.1, p.2 ++ [v]) else p)
  else
    h ++ [(k, [v])]

/-- Everything the handler reads from an inbound `*http.Request`, and the
shape of the outbound request it builds. -/
structure Request where
  method : String
  url : String
  remoteAddr : String
  headers : Header
  body : List Nat
  deriving Repr, DecidableEq

/-- A backend `*http.Response`. -/
structure Response where
  statusCode : Nat
  headers : Header
  body : List Nat
  deriving Repr, DecidableEq

/-- Host part of `net.SplitHostPort`: everything before the last colon.
Modelled for the addresses a Go HTTP server produces (`host:port`); on an
address with no colon `SplitHostPort` errors and the code, ignoring the
error, is left with the empty host. Bracketed IPv6 literals are not
modelled. -/
def beforeLastColon : List Char → List Char
  | [] => []
  | c :: cs => if cs.contains ':' then c :: beforeLastColon cs else []

def splitHost (addr : String) : String :=
  if addr.toList.contains ':' then String.mk (beforeLastColon addr.toList) else ""

/-- The caller IP the handler resolves (main.go:201-205): the `X-Real-IP`
header when non-empty, otherwise the host part of `r.RemoteAddr`. -/
def resolvedIP (r : Request) : String :=
  let remoteIP := hGet r.headers "X-Real-IP"
  if remoteIP == "" then splitHost r.remoteAddr else remoteIP

/-- Outcome of the one `client.Do` call a forwarding attempt makes. -/
inductive SendOutcome where
  | timeout
  | netError
  | ok (resp : Response)
  deriving Repr, DecidableEq

/-- Oracle for the fallible I/O steps of one forwarding attempt:
`io.ReadAll(r.Body)`, `http.NewRequest`, and `client.Do`. -/
structure NetOracle where
  readBodyOk : Bool
  newRequestOk : Bool
  send : SendOutcome
  deriving Repr, DecidableEq

/-- What is written to the caller's `http.ResponseWriter`. -/
structure CallerResponse where
  status : Nat
  headers : Header
  body : List Nat
  deriving Repr, DecidableEq

/-- `http.Error(w, msg, code)`: status `code`, body `msg`. -/
def httpError (msg : String) (code : Nat) : CallerResponse :=
  { status := code, headers := [], body := msg.toList.map Char.toNat }

/-- How one `proxyHandler` invocation ends for its caller. -/
inductive ProxyStep where
  /-- A response was written to `w`. -/
  | responded (resp : CallerResponse)
  /-- `requestQueue <- r` succeeded (buffer had room) and the handler
  returned without writing anything to `w` (main.go:216-219). -/
  | enqueued
  /-- `requestQueue <- r` on a full 100-slot channel buffer: the send
  blocks; no response is written and the handler does not return. -/
  | blockedOnFullQueue
  deriving Repr, DecidableEq

/-- Result of one `proxyHandler` invocation: the caller-visible step, the
pool and request-queue state afterwards, and the outbound request sent to a
backend, if the attempt got that far. -/
structure ProxyOutcome where
  step : ProxyStep
  pool : List Server
  queue : List Request
  outbound : Option Request
  deriving Repr, DecidableEq

/-- `make(chan *http.Request, 100)` (main.go:45). -/
def requestQueueCap : Nat := 100

/-- Lines 215-280 of `proxyHandler`: claim a server or enqueue, then build
and send the outbound request and relay the outcome. `remoteIP` and
`currentIP` are the values resolved at lines 201-205. -/
def admitAndForward (pool : List Server) (queue : List Request) (r : Request)
    (io : NetOracle) (remoteIP currentIP : String) : ProxyOutcome :=
  match findAvailableServer pool with
  | (none, pool1) =>
      if queue.length < requestQueueCap then
        ⟨.enqueued, pool1, queue ++ [r], none⟩
      else
        ⟨.blockedOnFullQueue, pool1, queue, none⟩
  | (some i, pool1) =>
      if !io.readBodyOk then
        -- main.go:224-228: 500 to the caller, the claimed server stays locked
        ⟨.responded (httpError "Failed to read request body" 500), pool1, queue, none⟩
      else if !io.newRequestOk then
        -- main.go:231-235: 500 to the caller, the claimed server stays locked
        ⟨.responded (httpError "Failed to create request" 500), pool1, queue, none⟩
      else
        let srv := pool1.getD i ⟨"", false, false⟩
        -- main.go:237-249: copy all inbound headers, rebuild X-Forwarded-For,
        -- append X-Real-IP
        let currentXFF0 := hGet r.headers "X-Forwarded-For"
        let currentXFF := if currentXFF0 == "" then remoteIP else currentXFF0
        let h1 := hDel r.headers "X-Forwarded-For"
        let h2 := hAdd h1 "X-Forwarded-For" (currentXFF ++ "," ++ currentIP)
        let h3 := hAdd h2 "X-Real-IP" remoteIP
        let outReq : Request := ⟨"POST", srv.url, "", h3, r.body⟩
        match io.send with
        | .timeout =>
            -- main.go:252-259: 502 to the caller, no unlockServer on this path
            ⟨.responded (httpError "Server error" 502), pool1, queue, some outReq⟩
        | .netError =>
            ⟨.responded (httpError "Server error" 502), pool1, queue, some outReq⟩
        | .ok resp =>
            -- main.go:263: unlockServer precedes the status check
            let pool2 := unlockServer pool1 i
            if resp.statusCode ≥ 500 then
              ⟨.responded (httpError "Server error" 502), pool2, queue, some outReq⟩
            else
              -- main.go:273-279: copy status, headers and body verbatim
              ⟨.responded ⟨resp.statusCode, resp.headers, resp.body⟩, pool2, queue, some outReq⟩

/-- `proxyHandler` (main.go:195-280): POST gate, caller-IP resolution,
allowlist gate, then `admitAndForward`. -/
def proxyHandler (allowedIPs : List String) (pool : List Server)
    (queue : List Request) (r : Request) (io : NetOracle) : ProxyOutcome :=
  if r.method != "POST" then
    ⟨.responded (httpError "Only POST method is allowed" 405), pool, queue, none⟩
  else
    let remoteIP := resolvedIP r
    let currentIP := r.remoteAddr
    if !(isIPAllowed allowedIPs remoteIP) then
      ⟨.responded (httpError "Access Denied" 403), pool, queue, none⟩
    else
      admitAndForward pool queue r io remoteIP currentIP

/-- How one `forwardRequest` call (main.go:122-164), run by the queue
consumer's goroutine, ends. -/
inductive FwdStep where
  /-- An error path was taken: each one calls `http.Error(nil, ...)`, and
  calling `Header()` on the nil `ResponseWriter` interface dereferences nil
  and panics, so the `unlockServer` written after it never executes and the
  goroutine's panic crashes the process. -/
  | crashed
  /-- Status < 500: `responseQueue <- resp` (main.go:163); no unlock. -/
  | pushedToResponseQueue (resp : Response)
  deriving Repr, DecidableEq

structure FwdOutcome where
  step : FwdStep
  pool : List Server
  outbound : Option Request
  deriving Repr, DecidableEq

/-- `forwardRequest` (main.go:122-164), acting on the server at pool index
`i` that the caller has already claimed.  Note `newReq.Header = req.Header`
(line 141): the inbound headers are used unchanged, with no
`X-Forwarded-For` or `X-Real-IP` handling on this path. -/
def forwardRequest (pool : List Server) (i : Nat) (req : Request)
    (io : NetOracle) : FwdOutcome :=
  if !io.readBodyOk then
    ⟨.crashed, pool, none⟩
  else if !io.newRequestOk then
    ⟨.crashed, pool, none⟩
  else
    let srv := pool.getD i ⟨"", false, false⟩
    let outReq : Request := ⟨"POST", srv.url, "", req.headers, req.body⟩
    match io.send with
    | .timeout => ⟨.crashed, pool, some outReq⟩
    | .netError => ⟨.crashed, pool, some outReq⟩
    | .ok resp =>
        if resp.statusCode ≥ 500 then
          ⟨.crashed, pool, some outReq⟩
        else
          ⟨.pushedToResponseQueue resp, pool, some outReq⟩

/-- One iteration of the retry loop `handleRequests` runs for a dequeued
request (main.go:166-180): try to claim, forward on success, otherwise
sleep 100 ms and loop. -/
inductive ConsumerStep where
  | retryAfterSleep
  | forwarded (out : FwdOutcome)
  deriving Repr, DecidableEq

def handleRequestsStep (pool : List Server) (req : Request)
    (io : NetOracle) : ConsumerStep × List Server :=
  match findAvailableServer pool with
  | (none, pool1) => (.retryAfterSleep, pool1)
  | (some i, pool1) =>
      let out := forwardRequest pool1 i req io
      (.forwarded out, out.pool)

/-- `responseQueue <- resp` appends to the single global `responseQueue`
channel (main.go:46,163) — the same channel for every request; nothing in
the program ever receives from it. -/
def pushResponse (respQueue : List Response) (out : FwdOutcome) : List Response :=
  match out.step with
  | .pushedToResponseQueue resp => respQueue ++ [resp]
  | .crashed => respQueue

/-- Headers of the outbound request of a handler invocation (`[]` when no
outbound request was built). -/
def outboundHeaders (o : ProxyOutcome) : Header :=
  (o.outbound.map Request.headers).getD []

/-- Headers of the outbound request of a `forwardRequest` call. -/
def fwdOutboundHeaders (o : FwdOutcome) : Header :=
  (o.outbound.map Request.headers).getD []

/-! Concrete data used to instantiate the theorems. -/

def demoReq : Request :=
  ⟨"POST", "/receive", "10.0.0.2:4242",
    [("X-Forwarded-For", ["1.1.1.1"]), ("Accept", ["text/plain"])], [1, 2, 3]⟩

def demoResp200 : Response := ⟨200, [("Content-Type", ["text/plain"])], [7, 8]⟩

def demoResp503 : Response := ⟨503, [], []⟩

def okIO : NetOracle := ⟨true, true, .ok demoResp200⟩

def demoPool : List Server :=
  [⟨"a", false, false⟩, ⟨"b", true, true⟩, ⟨"c", false, true⟩, ⟨"d", false, true⟩]

def reqA : Request := ⟨"POST", "/receive", "10.0.0.7:1111", [], [10]⟩

def reqB : Request := ⟨"POST", "/receive", "10.0.0.8:2222", [], [20]⟩

def respA : Response := ⟨200, [], [100]⟩

def respB : Response := ⟨200, [], [200]⟩

def reqSpoofA : Request :=
  ⟨"POST", "/receive", "203.0.113.5:999", [("X-Real-IP", ["10.0.0.1"])], []⟩

def reqSpoofB : Request :=
  ⟨"POST", "/receive", "198.51.100.7:1234", [("X-Real-IP", ["10.0.0.1"])], []⟩

/-! Helper lemmas about the header operations. -/

theorem hGet_eq_headD (h : Header) (k : String) : hGet h k = (hVals h k).headD "" := by
  unfold hGet hVals
  cases hf : h.find? (fun p => p.1 == k) with
  | none => rfl
  | some p =>
      obtain ⟨a, vs⟩ := p
      cases vs <;> rfl

theorem hVals_cons (p : String × List String) (rest : Header) (k : String) :
    hVals (p :: rest) k = if p.1 = k then p.2 else hVals rest k := by
  obtain ⟨a, vs⟩ := p
  by_cases hp : a = k
  · simp [hVals, List.find?_cons, hp]
  · simp [hVals, List.find?_cons, hp]

theorem hDel_cons (p : String × List String) (rest : Header) (k : String) :
    hDel (p :: rest) k = if p.1 = k then hDel rest k else p :: hDel rest k := by
  by_cases hp : p.1 = k <;> simp [hDel, List.filter_cons, hp]

theorem hVals_hDel_self (h : Header) (k : String) : hVals (hDel h k) k = [] := by
  induction h with
  | nil => rfl
  | cons p rest ih =>
      by_cases hp : p.1 = k
      · simpa [hDel_cons, hp] using ih
      · simpa [hDel_cons, hVals_cons, hp] using ih

theorem hVals_hDel_ne (h : Header) (k q : String) (hne : q ≠ k) :
    hVals (hDel h k) q = hVals h q := by
  induction h with
  | nil => rfl
  | cons p rest ih =>
      have hkq : ¬ k = q := fun e => hne e.symm
      by_cases hp : p.1 = k
      · simp_all [hDel_cons, hVals_cons]
      · by_cases hq : p.1 = q <;> simp_all [hDel_cons, hVals_cons]

theorem hVals_map_add_ne (h : Header) (k q v : String) (hne : q ≠ k) :
    hVals (h.map (fun p => if p.1 == k then (p.1, p.2 ++ [v]) else p)) q = hVals h q := by
  induction h with
  | nil => rfl
  | cons p rest ih =>
      have hkq : ¬ k = q := fun e => hne e.symm
      by_cases hp : p.1 = k
      · simp_all [hVals_cons]
      · by_cases hq : p.1 = q <;> simp_all [hVals_cons]

theorem hVals_map_add_self (h : Header) (k v : String)
    (hany : h.any (fun p => p.1 == k) = true) :
    hVals (h.map (fun p => if p.1 == k then (p.1, p.2 ++ [v]) else p)) k
      = hVals h k ++ [v] := by
  induction h with
  | nil => simp at hany
  | cons p rest ih =>
      by_cases hp : p.1 = k
      · simp [hVals_cons, hp]
      · have hrest : rest.any (fun p => p.1 == k) = true := by
          simpa [List.any_cons, hp] using hany
        simp [hVals_cons, hp]
        simpa using ih hrest

theorem hVals_append_single_ne (h : Header) (k q v : String) (hne : q ≠ k) :
    hVals (h ++ [(k, [v])]) q = hVals h q := by
  induction h with
  | nil =>
      have hkq : ¬ k = q := fun e => hne e.symm
      simp [hVals_cons, hkq, hVals]
  | cons p rest ih =>
      by_cases hq : p.1 = q <;> simp [hVals_cons, hq, ih]

theorem hVals_append_single_self (h : Header) (k v : String)
    (hany : ¬ h.any (fun p => p.1 == k) = true) :
    hVals (h ++ [(k, [v])]) k = hVals h k ++ [v] := by
  induction h with
  | nil => simp [hVals_cons, hVals]
  | cons p rest ih =>
      simp only [List.any_cons, Bool.or_eq_true, not_or] at hany
      obtain ⟨hp0, hrest⟩ := hany
      have hp : ¬ p.1 = k := by simpa using hp0
      simp [hVals_cons, hp, ih hrest]

theorem hVals_hAdd_ne (h : Header) (k q v : String) (hne : q ≠ k) :
    hVals (hAdd h k v) q = hVals h q := by
  unfold hAdd
  by_cases hany : h.any (fun p => p.1 == k) = true
  · rw [if_pos hany]; exact hVals_map_add_ne h k q v hne
  · rw [if_neg hany]; exact hVals_append_single_ne h k q v hne

theorem hVals_hAdd_self (h : Header) (k v : String) :
    hVals (hAdd h k v) k = hVals h k ++ [v] := by
  unfold hAdd
  by_cases hany : h.any (fun p => p.1 == k) = true
  · rw [if_pos hany]; exact hVals_map_add_self h k v hany
  · rw [if_neg hany]; exact hVals_append_single_self h k v hany

/-! Allowlist lemmas. -/

theorem isIPAllowed_of_mem {l : List String} {ip : String} (h : ip ∈ l) :
    isIPAllowed l ip = true := by
  cases l with
  | nil => rfl
  | cons a rest =>
      simp only [isIPAllowed, List.length_cons]
      rw [if_neg (by simp)]
      exact List.any_eq_true.mpr ⟨ip, h, by simp⟩

theorem isIPAllowed_eq_false {l : List String} {ip : String} (hne : l ≠ [])
    (h : ip ∉ l) : isIPAllowed l ip = false := by
  cases l with
  | nil => exact absurd rfl hne
  | cons a rest =>
      simp only [isIPAllowed, List.length_cons]
      rw [if_neg (by simp)]
      rw [List.any_eq_false]
      intro x hx
      simp only [beq_iff_eq]
      exact fun e => h (e ▸ hx)

/-! Reduction lemmas for the handler. -/

theorem proxyHandler_not_post (allowedIPs : List String) (pool : List Server)
    (queue : List Request) (r : Request) (io : NetOracle) (hm : ¬ r.method = "POST") :
    proxyHandler allowedIPs pool queue r io
      = ⟨.responded (httpError "Only POST method is allowed" 405), pool, queue, none⟩ := by
  unfold proxyHandler
  rw [if_pos (by simp [hm])]

theorem proxyHandler_post_allowed (allowedIPs : List String) (pool : List Server)
    (queue : List Request) (r : Request) (io : NetOracle) (hm : r.method = "POST")
    (ha : isIPAllowed allowedIPs (resolvedIP r) = true) :
    proxyHandler allowedIPs pool queue r io
      = admitAndForward pool queue r io (resolvedIP r) r.remoteAddr := by
  unfold proxyHandler
  rw [if_neg (by simp [hm])]
  simp only [ha, Bool.not_true]
  rw [if_neg (by simp)]

theorem proxyHandler_post_denied (allowedIPs : List String) (pool : List Server)
    (queue : List Request) (r : Request) (io : NetOracle) (hm : r.method = "POST")
    (ha : isIPAllowed allowedIPs (resolvedIP r) = false) :
    proxyHandler allowedIPs pool queue r io
      = ⟨.responded (httpError "Access Denied" 403), pool, queue, none⟩ := by
  unfold proxyHandler
  rw [if_neg (by simp [hm])]
  simp only [ha, Bool.not_false]
  rw [if_pos (by simp)]

theorem admitAndForward_noServer (pool : List Server) (queue : List Request)
    (r : Request) (io : NetOracle) (rip cip : String)
    (hno : (findAvailableServer pool).1 = none) :
    admitAndForward pool queue r io rip cip
      = if queue.length < requestQueueCap
          then ⟨.enqueued, (findAvailableServer pool).2, queue ++ [r], none⟩
          else ⟨.blockedOnFullQueue, (findAvailableServer pool).2, queue, none⟩ := by
  unfold admitAndForward
  rcases hfa : findAvailableServer pool with ⟨o, pool1⟩
  rw [hfa] at hno
  simp only at hno
  subst hno
  rfl

theorem admitAndForward_outbound (pool : List Server) (queue : List Request)
    (r : Request) (io : NetOracle) (rip cip : String) (i : Nat)
    (hcl : (findAvailableServer pool).1 = some i)
    (hrb : io.readBodyOk = true) (hnr : io.newRequestOk = true) :
    (admitAndForward pool queue r io rip cip).outbound = some
      ⟨"POST", ((findAvailableServer pool).2.getD i ⟨"", false, false⟩).url, "",
        hAdd (hAdd (hDel r.headers "X-Forwarded-For") "X-Forwarded-For"
          ((if hGet r.headers "X-Forwarded-For" == "" then rip
            else hGet r.headers "X-Forwarded-For") ++ "," ++ cip)) "X-Real-IP" rip,
        r.body⟩ := by
  unfold admitAndForward
  rcases hfa : findAvailableServer pool with ⟨o, pool1⟩
  rw [hfa] at hcl
  simp only at hcl
  subst hcl
  simp only [hrb, hnr, Bool.not_true]
  rw [if_neg (by simp), if_neg (by simp)]
  cases hs : io.send with
  | timeout => rfl
  | netError => rfl
  | ok resp =>
      simp only
      split <;> rfl

theorem forwardRequest_outbound (pool : List Server) (i : Nat) (req : Request)
    (io : NetOracle) (hrb : io.readBodyOk = true) (hnr : io.newRequestOk = true) :
    (forwardRequest pool i req io).outbound
      = some ⟨"POST", (pool.getD i ⟨"", false, false⟩).url, "", req.headers, req.body⟩ := by
  unfold forwardRequest
  simp only [hrb, hnr, Bool.not_true]
  rw [if_neg (by simp), if_neg (by simp)]
  cases hs : io.send with
  | timeout => rfl
  | netError => rfl
  | ok resp =>
      simp only
      split <;> rfl

/-! Claim theorems. -/

/-- Claim C1: the spec demands that every backend claimed by
`findAvailableServer` is unlocked exactly once on every exit path of the
forwarding attempt.  The code refutes this at concrete inputs: on the
immediate path a network timeout, a network error and a body-read error all
return to the caller with the claimed server still locked (main.go:224-259
never call `unlockServer`), and on the queued path a successful forward
pushes the response without ever unlocking (main.go:163), so the number of
releases falls short of the number of claims. -/
theorem C1_release_pairing_fails :
    (proxyHandler [] [⟨"http://b1", false, true⟩] [] demoReq ⟨true, true, .timeout⟩).step
        = .responded (httpError "Server error" 502) ∧
    (proxyHandler [] [⟨"http://b1", false, true⟩] [] demoReq ⟨true, true, .timeout⟩).pool
        = [⟨"http://b1", true, true⟩] ∧
    (proxyHandler [] [⟨"http://b1", false, true⟩] [] demoReq ⟨true, true, .netError⟩).pool
        = [⟨"http://b1", true, true⟩] ∧
    (proxyHandler [] [⟨"http://b1", false, true⟩] [] demoReq ⟨false, true, .ok demoResp200⟩).pool
        = [⟨"http://b1", true, true⟩] ∧
    (handleRequestsStep [⟨"http://b1", false, true⟩] demoReq ⟨true, true, .ok demoResp200⟩).2
        = [⟨"http://b1", true, true⟩] := by
  refine ⟨?_, ?_, ?_, ?_, ?_⟩ <;> rfl

/-- Claim C2: the spec demands that a queued request's outcome is delivered
back to its one waiting caller over a private per-request channel.  The
code refutes this: the handler enqueues and returns writing nothing to the
caller, and the consumer pushes every backend response onto the single
global `responseQueue` (main.go:46,163), which carries no correlation to
any caller and is never read — here two distinct requests' responses end up
interleaved on the one shared channel. -/
theorem C2_per_request_delivery_fails :
    (proxyHandler [] [⟨"http://b1", true, true⟩] [] reqA ⟨true, true, .ok respA⟩).step
        = .enqueued ∧
    (proxyHandler [] [⟨"http://b1", true, true⟩] [reqA] reqB ⟨true, true, .ok respB⟩).step
        = .enqueued ∧
    pushResponse (pushResponse []
        (forwardRequest [⟨"http://b1", true, true⟩] 0 reqA ⟨true, true, .ok respA⟩))
        (forwardRequest [⟨"http://b1", true, true⟩] 0 reqB ⟨true, true, .ok respB⟩)
      = [respA, respB] := by
  refine ⟨?_, ?_, ?_⟩ <;> rfl

/-- Claim C6: the spec says every forwarded request whose backend response
has status < 500 releases the backend and relays status, headers and body
verbatim to the caller.  The code refutes this on the queued path: a 200
response is pushed onto the global `responseQueue` (never reaching the
caller, whose handler already returned) and the backend stays locked. -/
theorem C6_sub500_relay_fails_on_queued_path :
    (handleRequestsStep [⟨"http://b1", false, true⟩] demoReq ⟨true, true, .ok demoResp200⟩).1
      = .forwarded ⟨.pushedToResponseQueue demoResp200,
          [⟨"http://b1", true, true⟩],
          some ⟨"POST", "http://b1", "", demoReq.headers, demoReq.body⟩⟩ := by
  rfl

/-- Claim C7: the spec says a backend response with status ≥ 500 releases
the backend, leaves its alive flag alone and reports a gateway error to the
caller.  The code refutes this on the queued path: `forwardRequest` calls
`http.Error` with a nil `ResponseWriter` (main.go:158), which panics before
the `unlockServer` on the next line, so the backend stays locked and no
gateway error is delivered to anyone. -/
theorem C7_5xx_handling_fails_on_queued_path :
    (handleRequestsStep [⟨"http://b1", false, true⟩] demoReq ⟨true, true, .ok demoResp503⟩).1
      = .forwarded ⟨.crashed, [⟨"http://b1", true, true⟩],
          some ⟨"POST", "http://b1", "", demoReq.headers, demoReq.body⟩⟩ ∧
    (handleRequestsStep [⟨"http://b1", false, true⟩] demoReq ⟨true, true, .ok demoResp503⟩).2
      = [⟨"http://b1", true, true⟩] := by
  exact ⟨rfl, rfl⟩

/-- Claim C4 counterexample: with every backend claimed and the request
queue already holding 100 requests, the 101st request does not fail fast
with a service-unavailable result — the channel send blocks and nothing is
written to the caller. -/
theorem C4_counterexample_full_queue_blocks :
    (proxyHandler [] [⟨"http://b1", true, true⟩] (List.replicate 100 demoReq) demoReq okIO).step
        = .blockedOnFullQueue ∧
    (proxyHandler [] [⟨"http://b1", true, true⟩] (List.replicate 100 demoReq) demoReq okIO).step
        ≠ .responded (httpError "Service Unavailable" 503) := by
  refine ⟨by rfl, by decide⟩

/-- Claim C5 counterexample: at a concrete request with an existing
`X-Forwarded-For` chain and caller address `10.0.0.2:4242`, the queued-retry
path forwards the inbound headers untouched — no `X-Real-IP` (or new
`X-Forwarded-For`) is added — and the immediate path appends the raw
`host:port` remote address to the chain, not the caller's IP. -/
theorem C5_counterexample_headers :
    fwdOutboundHeaders (forwardRequest [⟨"http://b1", true, true⟩] 0 demoReq okIO)
        = demoReq.headers ∧
    hGet (fwdOutboundHeaders (forwardRequest [⟨"http://b1", true, true⟩] 0 demoReq okIO))
        "X-Real-IP" = "" ∧
    hGet (outboundHeaders (proxyHandler [] [⟨"http://b1", false, true⟩] [] demoReq okIO))
        "X-Forwarded-For" = "1.1.1.1,10.0.0.2:4242" ∧
    "1.1.1.1,10.0.0.2:4242" ≠ "1.1.1.1," ++ resolvedIP demoReq := by
  refine ⟨by rfl, by rfl, by rfl, by decide⟩

/-- Claim C3: `findAvailableServer` scans the pool in order and returns the
first backend with `alive && !locked`, setting `locked := true` on exactly
that backend within the same critical section; it returns nothing iff no
backend qualifies (in particular a dead backend is never returned, and an
alive unclaimed backend is eligible), leaving the pool untouched in that
case. -/
theorem C3_tryClaim_first_usable (pool : List Server) :
    (∀ i, (findAvailableServer pool).1 = some i →
        ∃ s, pool.get? i = some s ∧ s.alive = true ∧ s.locked = false ∧
          (∀ j, j < i → ∀ t, pool.get? j = some t →
            ¬(t.alive = true ∧ t.locked = false)) ∧
          (findAvailableServer pool).2 = pool.set i { s with locked := true }) ∧
    ((findAvailableServer pool).1 = none ↔
        ∀ s ∈ pool, ¬(s.alive = true ∧ s.locked = false)) ∧
    ((findAvailableServer pool).1 = none → (findAvailableServer pool).2 = pool) := by
  induction pool with
  | nil =>
      refine ⟨?_, ?_, fun _ => rfl⟩
      · intro i h; exact Option.noConfusion h
      · simp [findAvailableServer]
  | cons s rest ih =>
      obtain ⟨ih1, ih2, ih3⟩ := ih
      by_cases hs : s.alive = true ∧ s.locked = false
      · have hcond : (s.alive && !s.locked) = true := by simp [hs.1, hs.2]
        have heq : findAvailableServer (s :: rest)
            = (some 0, { s with locked := true } :: rest) := by
          unfold findAvailableServer; rw [if_pos hcond]
        refine ⟨?_, ?_, ?_⟩
        · intro i h
          rw [heq] at h
          simp only at h
          obtain rfl : i = 0 := (Option.some_inj.mp h).symm
          refine ⟨s, rfl, hs.1, hs.2, ?_, ?_⟩
          · intro j hj; exact absurd hj (Nat.not_lt_zero j)
          · rw [heq]; rfl
        · rw [heq]
          simp only
          constructor
          · intro h; exact Option.noConfusion h
          · intro h; exact absurd hs (h s (List.mem_cons_self s rest))
        · intro h; rw [heq] at h; exact Option.noConfusion h
      · have hcond : (s.alive && !s.locked) = false := by
          cases ha : s.alive <;> cases hl : s.locked <;> simp_all
        have h1eq : (findAvailableServer (s :: rest)).1
            = (findAvailableServer rest).1.map Nat.succ := by
          simp only [findAvailableServer]
          rw [if_neg (by simp [hcond])]
        have h2eq : (findAvailableServer (s :: rest)).2
            = s :: (findAvailableServer rest).2 := by
          simp only [findAvailableServer]
          rw [if_neg (by simp [hcond])]
        refine ⟨?_, ?_, ?_⟩
        · intro i h
          rw [h1eq] at h
          cases ho : (findAvailableServer rest).1 with
          | none => rw [ho] at h; exact Option.noConfusion h
          | some i0 =>
              rw [ho] at h
              obtain rfl : i = i0 + 1 := by simpa using h.symm
              obtain ⟨t, hget, hal, hlo, hfirst, hset⟩ := ih1 i0 ho
              refine ⟨t, hget, hal, hlo, ?_, ?_⟩
              · intro j hj u hu
                cases j with
                | zero =>
                    obtain rfl : s = u := by simpa using hu
                    exact hs
                | succ j0 =>
                    exact hfirst j0 (Nat.lt_of_succ_lt_succ hj) u hu
              · rw [h2eq, List.set_cons_succ, hset]
        · rw [h1eq]
          constructor
          · intro h u hu
            have h0 : (findAvailableServer rest).1 = none := by
              cases hoo : (findAvailableServer rest).1 with
              | none => rfl
              | some i0 => rw [hoo] at h; exact Option.noConfusion h
            rcases List.mem_cons.mp hu with rfl | humem
            · exact hs
            · exact ih2.mp h0 u humem
          · intro hall
            rw [ih2.mpr fun u hu => hall u (List.mem_cons_of_mem s hu)]
            rfl
        · intro h
          rw [h1eq] at h
          have h0 : (findAvailableServer rest).1 = none := by
            cases hoo : (findAvailableServer rest).1 with
            | none => rfl
            | some i0 => rw [hoo] at h; exact Option.noConfusion h
          rw [h2eq, ih3 h0]

/-- Claim C3 witness: in the pool `[dead, locked, free, free]` the selector
claims index 2 — the first alive unclaimed backend — and only that entry's
lock flag changes. -/
theorem C3_tryClaim_first_usable_witness :
    ∃ s, demoPool.get? 2 = some s ∧ s.alive = true ∧ s.locked = false ∧
      (∀ j, j < 2 → ∀ t, demoPool.get? j = some t →
        ¬(t.alive = true ∧ t.locked = false)) ∧
      (findAvailableServer demoPool).2 = demoPool.set 2 { s with locked := true } :=
  (C3_tryClaim_first_usable demoPool).1 2 (by decide)

/-- Claim C4 (amended): when no backend is claimable the request is placed
at the tail of the bounded FIFO queue of capacity 100; a request arriving
while the queue already holds 100 entries blocks on the channel send until
space frees (it is not silently dropped), rather than failing fast with a
service-unavailable result. -/
theorem C4_amended_full_queue_blocks (allowedIPs : List String) (pool : List Server)
    (queue : List Request) (r : Request) (io : NetOracle)
    (hm : r.method = "POST")
    (ha : isIPAllowed allowedIPs (resolvedIP r) = true)
    (hno : (findAvailableServer pool).1 = none) :
    requestQueueCap = 100 ∧
    (queue.length < 100 →
        (proxyHandler allowedIPs pool queue r io).step = .enqueued ∧
        (proxyHandler allowedIPs pool queue r io).queue = queue ++ [r]) ∧
    (¬ queue.length < 100 →
        (proxyHandler allowedIPs pool queue r io).step = .blockedOnFullQueue ∧
        (proxyHandler allowedIPs pool queue r io).queue = queue) := by
  rw [proxyHandler_post_allowed allowedIPs pool queue r io hm ha,
    admitAndForward_noServer pool queue r io (resolvedIP r) r.remoteAddr hno]
  refine ⟨rfl, ?_, ?_⟩
  · intro hlt
    rw [if_pos (show queue.length < requestQueueCap from hlt)]
    exact ⟨rfl, rfl⟩
  · intro hge
    rw [if_neg (show ¬ queue.length < requestQueueCap from hge)]
    exact ⟨rfl, rfl⟩

/-- Claim C4 witness: an empty queue admits the request at its tail. -/
theorem C4_amended_full_queue_blocks_witness :
    requestQueueCap = 100 ∧
    (([] : List Request).length < 100 →
        (proxyHandler [] [⟨"http://b1", true, true⟩] [] demoReq okIO).step = .enqueued ∧
        (proxyHandler [] [⟨"http://b1", true, true⟩] [] demoReq okIO).queue
          = [] ++ [demoReq]) ∧
    (¬ ([] : List Request).length < 100 →
        (proxyHandler [] [⟨"http://b1", true, true⟩] [] demoReq okIO).step
          = .blockedOnFullQueue ∧
        (proxyHandler [] [⟨"http://b1", true, true⟩] [] demoReq okIO).queue = []) :=
  C4_amended_full_queue_blocks [] [⟨"http://b1", true, true⟩] [] demoReq okIO
    rfl rfl (by decide)

/-- Claim C5 (amended): on the immediate-forward path the outbound request
carries every inbound header except that `X-Forwarded-For` is replaced by
the inbound chain (or the resolved caller IP when the chain is empty)
followed by a comma and the connection's raw `host:port` remote address,
and a further `X-Real-IP` value equal to the resolved caller IP is
appended; on the queued-retry path the outbound request carries exactly the
inbound headers, with no `X-Forwarded-For` or `X-Real-IP` change. -/
theorem C5_amended_header_rewrite (allowedIPs : List String) (pool : List Server)
    (queue : List Request) (r : Request) (io : NetOracle) (i : Nat) (k : String)
    (hm : r.method = "POST")
    (ha : isIPAllowed allowedIPs (resolvedIP r) = true)
    (hcl : (findAvailableServer pool).1 = some i)
    (hrb : io.readBodyOk = true) (hnr : io.newRequestOk = true) :
    (¬ k = "X-Forwarded-For" → ¬ k = "X-Real-IP" →
        hVals (outboundHeaders (proxyHandler allowedIPs pool queue r io)) k
          = hVals r.headers k) ∧
    hGet (outboundHeaders (proxyHandler allowedIPs pool queue r io)) "X-Forwarded-For"
      = (if hGet r.headers "X-Forwarded-For" = "" then resolvedIP r
         else hGet r.headers "X-Forwarded-For") ++ "," ++ r.remoteAddr ∧
    hVals (outboundHeaders (proxyHandler allowedIPs pool queue r io)) "X-Real-IP"
      = hVals r.headers "X-Real-IP" ++ [resolvedIP r] ∧
    fwdOutboundHeaders (forwardRequest pool i r io) = r.headers := by
  have hoh : outboundHeaders (proxyHandler allowedIPs pool queue r io)
      = hAdd (hAdd (hDel r.headers "X-Forwarded-For") "X-Forwarded-For"
          ((if hGet r.headers "X-Forwarded-For" == "" then resolvedIP r
            else hGet r.headers "X-Forwarded-For") ++ "," ++ r.remoteAddr))
          "X-Real-IP" (resolvedIP r) := by
    rw [proxyHandler_post_allowed allowedIPs pool queue r io hm ha]
    unfold outboundHeaders
    rw [admitAndForward_outbound pool queue r io (resolvedIP r) r.remoteAddr i hcl hrb hnr]
    rfl
  refine ⟨?_, ?_, ?_, ?_⟩
  · intro hk1 hk2
    rw [hoh, hVals_hAdd_ne _ _ _ _ hk2, hVals_hAdd_ne _ _ _ _ hk1,
      hVals_hDel_ne _ _ _ hk1]
  · rw [hoh, hGet_eq_headD,
      hVals_hAdd_ne _ _ _ _ (show ¬("X-Forwarded-For" : String) = "X-Real-IP" by decide),
      hVals_hAdd_self, hVals_hDel_self]
    by_cases hx : hGet r.headers "X-Forwarded-For" = "" <;> simp [hx]
  · rw [hoh, hVals_hAdd_self,
      hVals_hAdd_ne _ _ _ _ (show ¬("X-Real-IP" : String) = "X-Forwarded-For" by decide),
      hVals_hDel_ne _ _ _ (show ¬("X-Real-IP" : String) = "X-Forwarded-For" by decide)]
  · unfold fwdOutboundHeaders
    rw [forwardRequest_outbound pool i r io hrb hnr]
    rfl

/-- Claim C5 witness: the amended header contract evaluated at the concrete
request `demoReq` against a one-server pool, for the untouched key
`Accept`. -/
theorem C5_amended_header_rewrite_witness :
    hVals (outboundHeaders (proxyHandler [] [⟨"http://b1", false, true⟩] [] demoReq okIO))
        "Accept" = hVals demoReq.headers "Accept" ∧
    hGet (outboundHeaders (proxyHandler [] [⟨"http://b1", false, true⟩] [] demoReq okIO))
        "X-Forwarded-For"
      = (if hGet demoReq.headers "X-Forwarded-For" = "" then resolvedIP demoReq
         else hGet demoReq.headers "X-Forwarded-For") ++ "," ++ demoReq.remoteAddr ∧
    hVals (outboundHeaders (proxyHandler [] [⟨"http://b1", false, true⟩] [] demoReq okIO))
        "X-Real-IP" = hVals demoReq.headers "X-Real-IP" ++ [resolvedIP demoReq] ∧
    fwdOutboundHeaders (forwardRequest [⟨"http://b1", false, true⟩] 0 demoReq okIO)
      = demoReq.headers := by
  have h := C5_amended_header_rewrite [] [⟨"http://b1", false, true⟩] [] demoReq okIO 0
    "Accept" rfl rfl (by decide) rfl rfl
  exact ⟨h.1 (by decide) (by decide), h.2.1, h.2.2.1, h.2.2.2⟩

/-- Claim C8: with a non-empty allowlist that does not contain the caller's
resolved IP, the handler responds with the 403 client error and leaves the
pool, queue and outbound request untouched — no backend is claimed, nothing
is enqueued or forwarded; with an empty allowlist every caller IP passes
the check and the handler proceeds to the claim-and-forward stage. -/
theorem C8_allowlist_gate (allowedIPs : List String) (pool : List Server)
    (queue : List Request) (r : Request) (io : NetOracle) (hm : r.method = "POST") :
    (allowedIPs ≠ [] → resolvedIP r ∉ allowedIPs →
        proxyHandler allowedIPs pool queue r io
          = ⟨.responded (httpError "Access Denied" 403), pool, queue, none⟩) ∧
    (allowedIPs = [] →
        isIPAllowed allowedIPs (resolvedIP r) = true ∧
        proxyHandler allowedIPs pool queue r io
          = admitAndForward pool queue r io (resolvedIP r) r.remoteAddr) := by
  constructor
  · intro hne hmem
    exact proxyHandler_post_denied allowedIPs pool queue r io hm
      (isIPAllowed_eq_false hne hmem)
  · intro he
    subst he
    exact ⟨rfl, proxyHandler_post_allowed [] pool queue r io hm rfl⟩

/-- Claim C8 witness: caller `10.0.0.2` against allowlist `["10.0.0.1"]` is
denied with state untouched, and the empty allowlist admits it. -/
theorem C8_allowlist_gate_witness :
    proxyHandler ["10.0.0.1"] [⟨"http://b1", false, true⟩] [] demoReq okIO
      = ⟨.responded (httpError "Access Denied" 403), [⟨"http://b1", false, true⟩],
          [], none⟩ ∧
    isIPAllowed [] (resolvedIP demoReq) = true :=
  ⟨(C8_allowlist_gate ["10.0.0.1"] [⟨"http://b1", false, true⟩] [] demoReq okIO rfl).1
      (by decide) (by decide),
   ((C8_allowlist_gate [] [⟨"http://b1", false, true⟩] [] demoReq okIO rfl).2 rfl).1⟩

/-- Claim C9: the allowlist decision is computed from the inbound
`X-Real-IP` header whenever it is non-empty (only otherwise from the host
part of the remote address, per `resolvedIP`), so two requests with the
same non-empty `X-Real-IP` value get the same accept/deny decision
regardless of their remote addresses, and a caller passes a non-empty
allowlist by setting `X-Real-IP` to an allowed IP. -/
theorem C9_xrealip_controls_allowlist (allowedIPs : List String) (r1 r2 : Request)
    (h1 : ¬ hGet r1.headers "X-Real-IP" = "")
    (h2 : hGet r2.headers "X-Real-IP" = hGet r1.headers "X-Real-IP") :
    resolvedIP r1 = hGet r1.headers "X-Real-IP" ∧
    resolvedIP r2 = resolvedIP r1 ∧
    isIPAllowed allowedIPs (resolvedIP r2) = isIPAllowed allowedIPs (resolvedIP r1) ∧
    (hGet r1.headers "X-Real-IP" ∈ allowedIPs →
        isIPAllowed allowedIPs (resolvedIP r1) = true) := by
  have e1 : resolvedIP r1 = hGet r1.headers "X-Real-IP" := by
    unfold resolvedIP
    rw [if_neg (by simp [h1])]
  have h2ne : ¬ hGet r2.headers "X-Real-IP" = "" := by rw [h2]; exact h1
  have e2 : resolvedIP r2 = hGet r2.headers "X-Real-IP" := by
    unfold resolvedIP
    rw [if_neg (by simp [h2ne])]
  have e3 : resolvedIP r2 = resolvedIP r1 := by rw [e1, e2, h2]
  refine ⟨e1, e3, by rw [e3], ?_⟩
  intro hmem
  rw [e1]
  exact isIPAllowed_of_mem hmem

/-- Claim C9 witness: two requests from different remote addresses that
both carry `X-Real-IP: 10.0.0.1` resolve identically and pass the allowlist
`["10.0.0.1"]`. -/
theorem C9_xrealip_controls_allowlist_witness :
    resolvedIP reqSpoofA = hGet reqSpoofA.headers "X-Real-IP" ∧
    resolvedIP reqSpoofB = resolvedIP reqSpoofA ∧
    isIPAllowed ["10.0.0.1"] (resolvedIP reqSpoofB)
      = isIPAllowed ["10.0.0.1"] (resolvedIP reqSpoofA) ∧
    (hGet reqSpoofA.headers "X-Real-IP" ∈ ["10.0.0.1"] →
        isIPAllowed ["10.0.0.1"] (resolvedIP reqSpoofA) = true) :=
  C9_xrealip_controls_allowlist ["10.0.0.1"] reqSpoofA reqSpoofB (by decide) rfl

/-- Claim C10: a request whose method is not POST is answered with the 405
client error before the allowlist check (the outcome is the same for every
allowlist), with the pool and queue untouched and no outbound request; and
conversely any invocation that enqueues the request or sends an outbound
request must have had method POST. -/
theorem C10_post_gate (allowedIPs : List String) (pool : List Server)
    (queue : List Request) (r : Request) (io : NetOracle) :
    (¬ r.method = "POST" →
        proxyHandler allowedIPs pool queue r io
          = ⟨.responded (httpError "Only POST method is allowed" 405),
              pool, queue, none⟩) ∧
    ((proxyHandler allowedIPs pool queue r io).step = .enqueued ∨
        ¬ (proxyHandler allowedIPs pool queue r io).outbound = none →
        r.method = "POST") := by
  constructor
  · exact proxyHandler_not_post allowedIPs pool queue r io
  · intro hreach
    by_contra hm
    rw [proxyHandler_not_post allowedIPs pool queue r io hm] at hreach
    rcases hreach with h | h
    · simp at h
    · exact h rfl

/-- Claim C10 witness: a GET request is answered 405 with nothing claimed,
enqueued or forwarded. -/
theorem C10_post_gate_witness :
    proxyHandler [] [⟨"http://b1", false, true⟩] [] { demoReq with method := "GET" } okIO
      = ⟨.responded (httpError "Only POST method is allowed" 405),
          [⟨"http://b1", false, true⟩], [], none⟩ :=
  (C10_post_gate [] [⟨"http://b1", false, true⟩] []
    { demoReq with method := "GET" } okIO).1 (by decide)

end Voidension
